import Mathlib

/-!
Shallow embedding of the `SnapshotCache` watch-dispatch core of
`rust-control-plane` (`src/cache/snapshot.rs`), together with the type-URL
registry (`src/snapshot/type_url.rs`).

Rust `HashMap<String, _>` values are embedded as association lists
(`List (String × _)`, first binding wins, insertion replaces in place);
`HashSet<String>` as `List String` with membership; the watch `Slab` as a
`List (Option Watch)` indexed by position (the slab crate reuses vacant
slots; no claim observes the reuse order, so insertion takes the first
vacant slot).  `Instant::now()` is passed in as an explicit `now : Nat`.
A responder channel (`WatchResponder`) is an opaque `Nat` identifier and a
send on it is recorded as a `Send` value; each operation returns the list
of sends it performed instead of performing them.
-/

set_option autoImplicit false

namespace ControlPlane

/-- Association-list lookup: value of the first binding of `k`, mirroring
`HashMap::get`. -/
def alistGet {α : Type} (k : String) : List (String × α) → Option α
  | [] => none
  | (k', v) :: rest => if k = k' then some v else alistGet k rest

/-- Association-list insert-or-replace, mirroring `HashMap::insert`:
replaces the first binding of `k` in place, otherwise appends. -/
def alistInsert {α : Type} (k : String) (v : α) : List (String × α) → List (String × α)
  | [] => [(k, v)]
  | (k', v') :: rest =>
    if k = k' then (k, v) :: rest else (k', v') :: alistInsert k v rest

/-- An xDS resource: the core only reads its `name`; the wire payload is
opaque. -/
structure Resource where
  name : String
  payload : Nat
  deriving DecidableEq, Repr

/-- The wire-level envelope produced by `Resource::into_any` at the
response boundary. -/
structure AnyPayload where
  value : Resource
  deriving DecidableEq, Repr

def Resource.into_any (r : Resource) : AnyPayload := ⟨r⟩

/-- A per-type resource bundle: `Resources { items: HashMap<String, Resource> }`. -/
structure Resources where
  items : List (String × Resource)
  deriving DecidableEq, Repr

/-- Modelled from the spec: the `Snapshot` type lives in the repository's
`snapshot` module, which is not under `src/`; per §6.3 it maps each
type URL to a resource bundle and a version string, with
`resources(type_url)` absent and `version(type_url)` empty for unknown
types. -/
structure Snapshot where
  items : List (String × Resources × String)
  deriving DecidableEq, Repr

def Snapshot.resources (s : Snapshot) (type_url : String) : Option Resources :=
  (alistGet type_url s.items).map Prod.fst

def Snapshot.version (s : Snapshot) (type_url : String) : String :=
  match alistGet type_url s.items with
  | some p => p.2
  | none => ""

/-- `envoy.config.core.v3.Node`: the core reads only `id`. -/
structure Node where
  id : String
  deriving DecidableEq, Repr

/-- `DiscoveryRequest`: the fields the core reads. -/
structure DiscoveryRequest where
  version_info : String
  node : Option Node
  resource_names : List String
  type_url : String
  deriving DecidableEq, Repr

/-- `DiscoveryResponse`: the fields the core sets (others zeroed). -/
structure DiscoveryResponse where
  version_info : String
  resources : List AnyPayload
  canary : Bool
  type_url : String
  nonce : String
  control_plane : Option Unit
  deriving DecidableEq, Repr

inductive FetchError where
  | NotFound
  | VersionUpToDate
  deriving DecidableEq, Repr

/-- A pending watch: the copied request and the responder channel id. -/
structure Watch where
  req : DiscoveryRequest
  tx : Nat
  deriving DecidableEq, Repr

/-- The watch slab: entries indexed by position, `none` marking a vacant
slot. -/
structure Slab where
  entries : List (Option Watch)
  deriving DecidableEq, Repr

def Slab.get (s : Slab) (i : Nat) : Option Watch :=
  s.entries.getD i none

/-- `Slab::insert`: place the value in the first vacant slot (or append)
and return its index. -/
def slabInsertAux (x : Watch) : List (Option Watch) → List (Option Watch) × Nat
  | [] => ([some x], 0)
  | none :: rest => (some x :: rest, 0)
  | some y :: rest =>
    let r := slabInsertAux x rest
    (some y :: r.1, r.2 + 1)

def Slab.insert (s : Slab) (x : Watch) : Slab × Nat :=
  let r := slabInsertAux x s.entries
  (⟨r.1⟩, r.2)

/-- `Slab::try_remove`: vacate slot `i`; a no-op when the slot is already
vacant or out of range. -/
def Slab.tryRemove (s : Slab) (i : Nat) : Slab :=
  ⟨s.entries.set i none⟩

/-- Occupied `(index, watch)` pairs in index order — the slab's iteration
order. -/
def slabOccupiedAux (i : Nat) : List (Option Watch) → List (Nat × Watch)
  | [] => []
  | none :: rest => slabOccupiedAux (i + 1) rest
  | some x :: rest => (i, x) :: slabOccupiedAux (i + 1) rest

def Slab.occupied (s : Slab) : List (Nat × Watch) :=
  slabOccupiedAux 0 s.entries

/-- `NodeStatus { last_request_time, watches }`. -/
structure NodeStatus where
  last_request_time : Nat
  watches : Slab
  deriving DecidableEq, Repr

/-- `NodeStatus::new()`, with `Instant::now()` passed in. -/
def NodeStatus.new (now : Nat) : NodeStatus :=
  { last_request_time := now, watches := ⟨[]⟩ }

structure WatchId where
  node_id : String
  index : Nat
  deriving DecidableEq, Repr

/-- The state behind the cache's mutex: `Inner { status, snapshots }`. -/
structure Inner where
  status : List (String × NodeStatus)
  snapshots : List (String × Snapshot)
  deriving DecidableEq, Repr

def Inner.new : Inner := { status := [], snapshots := [] }

/-- One send on a responder channel: `tx.send((req, response))`. -/
structure Send where
  tx : Nat
  req : DiscoveryRequest
  response : DiscoveryResponse
  deriving DecidableEq, Repr

/-- Per-stream `KnownResourceNames`: type URL → set of names already
delivered. -/
def KnownResourceNames : Type := List (String × List String)

def hash_id (node : Option Node) : String :=
  match node with
  | some node => node.id
  | none => ""

/-- The `for name in &req.resource_names { if let Some(resource) =
resources.items.get(name) { filtered_resources.push(resource.into_any()) } }`
loop of `build_response`. -/
def filterResourcesLoop (items : List (String × Resource)) :
    List String → List AnyPayload
  | [] => []
  | name :: rest =>
    match alistGet name items with
    | some resource => resource.into_any :: filterResourcesLoop items rest
    | none => filterResourcesLoop items rest

def build_response (req : DiscoveryRequest) (resources : Option Resources)
    (version : String) : DiscoveryResponse :=
  let filtered_resources :=
    match resources with
    | some resources =>
      if req.resource_names.isEmpty then
        resources.items.map (fun p => p.2.into_any)
      else
        filterResourcesLoop resources.items req.resource_names
    | none => []
  { type_url := req.type_url
    nonce := ""
    version_info := version
    resources := filtered_resources
    control_plane := none
    canary := false }

/-- `respond`: build the response and send it on `tx` (the send is
returned as data). -/
def respond (req : DiscoveryRequest) (tx : Nat) (resources : Option Resources)
    (version : String) : Send :=
  { tx := tx, req := req, response := build_response req resources version }

def check_ads_consistency (req : DiscoveryRequest) (resources : Option Resources) :
    Bool :=
  if !req.resource_names.isEmpty then
    match resources with
    | some resources =>
      resources.items.all (fun p => req.resource_names.contains p.1)
    | none => true
  else
    true

def is_requesting_new_resources (req : DiscoveryRequest)
    (resources : Option Resources)
    (type_known_resource_names : Option (List String)) : Bool :=
  match resources with
  | some resources =>
    match type_known_resource_names with
    | some known_resource_names =>
      let diff := req.resource_names.filter
        (fun name => !known_resource_names.contains name)
      diff.any (fun name => (alistGet name resources.items).isSome)
    | none => false
  | none => false

/-- `Inner::update_node_status`: `entry(..).and_modify(set time).or_insert_with(NodeStatus::new)`. -/
def Inner.update_node_status (inner : Inner) (node_id : String) (now : Nat) :
    Inner :=
  match alistGet node_id inner.status with
  | some status =>
    { inner with
      status :=
        alistInsert node_id { status with last_request_time := now } inner.status }
  | none =>
    { inner with status := alistInsert node_id (NodeStatus.new now) inner.status }

/-- `Inner::set_watch`.  The `none` branch is unreachable at both call
sites (`update_node_status` has just inserted the entry); the source
unwraps there. -/
def Inner.set_watch (inner : Inner) (node_id : String) (req : DiscoveryRequest)
    (tx : Nat) : Inner × WatchId :=
  match alistGet node_id inner.status with
  | some status =>
    let r := status.watches.insert { req := req, tx := tx }
    ({ inner with
       status := alistInsert node_id { status with watches := r.1 } inner.status },
     { node_id := node_id, index := r.2 })
  | none => (inner, { node_id := node_id, index := 0 })

/-- `create_watch`, returning the new state, the optional watch id, and
the sends performed. -/
def create_watch (ads : Bool) (inner : Inner) (req : DiscoveryRequest) (tx : Nat)
    (known_resource_names : KnownResourceNames) (now : Nat) :
    Inner × Option WatchId × List Send :=
  let node_id := hash_id req.node
  let inner := inner.update_node_status node_id now
  match alistGet node_id inner.snapshots with
  | some snapshot =>
    let resources := snapshot.resources req.type_url
    let version := snapshot.version req.type_url
    let type_known_resource_names := alistGet req.type_url known_resource_names
    if is_requesting_new_resources req resources type_known_resource_names then
      if ads && check_ads_consistency req resources then
        let r := inner.set_watch node_id req tx
        (r.1, some r.2, [])
      else
        (inner, none, [respond req tx resources version])
    else if req.version_info = version then
      let r := inner.set_watch node_id req tx
      (r.1, some r.2, [])
    else if ads && check_ads_consistency req resources then
      let r := inner.set_watch node_id req tx
      (r.1, some r.2, [])
    else
      (inner, none, [respond req tx resources version])
  | none =>
    let r := inner.set_watch node_id req tx
    (r.1, some r.2, [])

/-- The second loop of `set_snapshot`: remove each marked watch from the
slab and respond on its channel.  The `none` branch is unreachable (the
ids come from the occupied scan and are distinct); the source's
`Slab::remove` would panic there. -/
def dispatchLoop (snapshot : Snapshot) (watches : Slab) :
    List Nat → Slab × List Send
  | [] => (watches, [])
  | watch_id :: rest =>
    match watches.get watch_id with
    | some watch =>
      let watches := watches.tryRemove watch_id
      let resources := snapshot.resources watch.req.type_url
      let version := snapshot.version watch.req.type_url
      let r := dispatchLoop snapshot watches rest
      (r.1, respond watch.req watch.tx resources version :: r.2)
    | none => dispatchLoop snapshot watches rest

def set_snapshot (inner : Inner) (node : String) (snapshot : Snapshot) :
    Inner × List Send :=
  let inner := { inner with snapshots := alistInsert node snapshot inner.snapshots }
  match alistGet node inner.status with
  | some status =>
    let to_delete :=
      (status.watches.occupied.filter
        (fun p => snapshot.version p.2.req.type_url ≠ p.2.req.version_info)).map
        Prod.fst
    let r := dispatchLoop snapshot status.watches to_delete
    ({ inner with status := alistInsert node { status with watches := r.1 } inner.status },
     r.2)
  | none => (inner, [])

def node_status (inner : Inner) : List (String × Nat) :=
  inner.status.map (fun p => (p.1, p.2.last_request_time))

def cancel_watch (inner : Inner) (watch_id : WatchId) : Inner :=
  match alistGet watch_id.node_id inner.status with
  | some status =>
    { inner with
      status :=
        alistInsert watch_id.node_id
          { status with watches := status.watches.tryRemove watch_id.index }
          inner.status }
  | none => inner

/-- `fetch` takes the lock without mutating: the state passes through
unchanged, paired with the result. -/
def fetch (inner : Inner) (req : DiscoveryRequest) (type_url : String) :
    Inner × Except FetchError DiscoveryResponse :=
  let node_id := hash_id req.node
  match alistGet node_id inner.snapshots with
  | none => (inner, .error .NotFound)
  | some snapshot =>
    let version := snapshot.version req.type_url
    if req.version_info = version then
      (inner, .error .VersionUpToDate)
    else
      (inner, .ok (build_response req (snapshot.resources type_url) version))

/-- The watch stored at `(node, index)`, if any. -/
def watchAt (inner : Inner) (node_id : String) (index : Nat) : Option Watch :=
  match alistGet node_id inner.status with
  | some status => status.watches.get index
  | none => none

/-- One cache operation, for reasoning about sequences of calls (the
sends are dropped; only the state evolution matters here). -/
inductive Op where
  | createWatch (req : DiscoveryRequest) (tx : Nat)
      (known : KnownResourceNames) (now : Nat)
  | cancelWatch (id : WatchId)
  | setSnapshot (node : String) (snap : Snapshot)
  | fetchOp (req : DiscoveryRequest) (type_url : String)

def applyOp (ads : Bool) (inner : Inner) : Op → Inner
  | .createWatch req tx known now => (create_watch ads inner req tx known now).1
  | .cancelWatch id => cancel_watch inner id
  | .setSnapshot node snap => (set_snapshot inner node snap).1
  | .fetchOp req type_url => (fetch inner req type_url).1


/-! ### Association-list lemmas -/

theorem alistGet_insert {α : Type} (k n : String) (v : α) (l : List (String × α)) :
    alistGet n (alistInsert k v l) = if n = k then some v else alistGet n l := by
  induction l with
  | nil => simp [alistGet, alistInsert]
  | cons hd tl ih =>
    obtain ⟨k', v'⟩ := hd
    by_cases hk : k = k'
    · subst hk
      simp only [alistInsert, if_pos rfl, alistGet]
      by_cases hn : n = k <;> simp [hn, alistGet]
    · simp only [alistInsert, if_neg hk, alistGet]
      by_cases hn : n = k'
      · subst hn
        have : ¬n = k := fun h => hk h.symm
        simp [this]
      · simp [hn, ih]

theorem alistGet_insert_self {α : Type} (k : String) (v : α) (l : List (String × α)) :
    alistGet k (alistInsert k v l) = some v := by
  simp [alistGet_insert]

theorem alistInsert_get_eq {α : Type} (k : String) (v : α) (l : List (String × α))
    (h : alistGet k l = some v) : alistInsert k v l = l := by
  induction l with
  | nil => simp [alistGet] at h
  | cons hd tl ih =>
    obtain ⟨k', v'⟩ := hd
    by_cases hk : k = k'
    · subst hk
      simp [alistGet] at h
      subst h
      simp [alistInsert]
    · simp only [alistGet, if_neg hk] at h
      simp [alistInsert, hk, ih h]

theorem alistGet_mem {α : Type} (k : String) (v : α) (l : List (String × α))
    (h : alistGet k l = some v) : (k, v) ∈ l := by
  induction l with
  | nil => simp [alistGet] at h
  | cons hd tl ih =>
    obtain ⟨k', v'⟩ := hd
    by_cases hk : k = k'
    · subst hk
      simp [alistGet] at h
      subst h
      simp
    · simp only [alistGet, if_neg hk] at h
      exact List.mem_cons_of_mem _ (ih h)

theorem alistGet_isSome_insert {α : Type} (k n : String) (v : α) (l : List (String × α))
    (h : (alistGet n l).isSome) : (alistGet n (alistInsert k v l)).isSome := by
  rw [alistGet_insert]
  by_cases hn : n = k <;> simp [hn, h]

theorem alistGet_none_not_mem {α : Type} (n : String) (l : List (String × α))
    (h : alistGet n l = none) : ∀ v, (n, v) ∉ l := by
  induction l with
  | nil => simp
  | cons hd tl ih =>
    obtain ⟨k', v'⟩ := hd
    by_cases hk : n = k'
    · simp [alistGet, hk] at h
    · simp only [alistGet, if_neg hk] at h
      intro v hv
      rcases List.mem_cons.mp hv with heq | hmem
      · exact hk (congrArg Prod.fst heq)
      · exact ih h v hmem

/-! ### Slab lemmas -/

theorem getD_set_none (l : List (Option Watch)) (i : Nat) :
    (l.set i none).getD i none = none := by
  induction l generalizing i with
  | nil => simp [List.getD]
  | cons hd tl ih =>
    cases i with
    | zero => simp
    | succ j => simpa using ih j

theorem getD_set_ne (l : List (Option Watch)) (i j : Nat) (h : j ≠ i) :
    (l.set i none).getD j none = l.getD j none := by
  induction l generalizing i j with
  | nil => simp [List.getD]
  | cons hd tl ih =>
    cases i with
    | zero =>
      cases j with
      | zero => exact absurd rfl h
      | succ j' => simp
    | succ i' =>
      cases j with
      | zero => simp
      | succ j' => simpa using ih i' j' (fun hj => h (congrArg Nat.succ hj))

theorem set_none_of_getD_none (l : List (Option Watch)) (i : Nat)
    (h : l.getD i none = none) : l.set i none = l := by
  induction l generalizing i with
  | nil => simp
  | cons hd tl ih =>
    cases i with
    | zero => simp_all
    | succ j =>
      simp only [List.getD_cons_succ] at h
      simp [ih j h]

theorem slabInsertAux_getD (x : Watch) (l : List (Option Watch)) :
    (slabInsertAux x l).1.getD (slabInsertAux x l).2 none = some x := by
  induction l with
  | nil => simp [slabInsertAux]
  | cons hd tl ih =>
    cases hd with
    | none => simp [slabInsertAux]
    | some y => simpa [slabInsertAux] using ih

theorem mem_slabOccupiedAux (l : List (Option Watch)) (i k : Nat) (w : Watch)
    (h : l.getD k none = some w) : (i + k, w) ∈ slabOccupiedAux i l := by
  induction l generalizing i k with
  | nil => simp [List.getD] at h
  | cons hd tl ih =>
    cases hd with
    | none =>
      cases k with
      | zero => simp at h
      | succ k' =>
        simp only [List.getD_cons_succ] at h
        have := ih (i + 1) k' h
        have harith : i + 1 + k' = i + (k' + 1) := by omega
        rw [harith] at this
        simpa [slabOccupiedAux] using this
    | some y =>
      cases k with
      | zero =>
        simp only [List.getD_cons_zero, Option.some.injEq] at h
        subst h
        simp [slabOccupiedAux]
      | succ k' =>
        simp only [List.getD_cons_succ] at h
        have := ih (i + 1) k' h
        have harith : i + 1 + k' = i + (k' + 1) := by omega
        rw [harith] at this
        simp [slabOccupiedAux, this]

theorem dispatchLoop_get (snap : Snapshot) (ws : Slab) (L : List Nat) (i : Nat) :
    ((dispatchLoop snap ws L).1).get i = if i ∈ L then none else ws.get i := by
  induction L generalizing ws with
  | nil => simp [dispatchLoop]
  | cons id' rest ih =>
    by_cases hi : i ∈ id' :: rest
    · simp only [if_pos hi]
      rcases List.mem_cons.mp hi with heq | hmem
      · subst heq
        cases hw : ws.get i with
        | none =>
          simp only [dispatchLoop, hw]
          by_cases hr : i ∈ rest
          · simp [ih, hr]
          · simp [ih, hr, hw]
        | some w =>
          simp only [dispatchLoop, hw]
          by_cases hr : i ∈ rest
          · simp [ih, hr]
          · simp only [ih, if_neg hr]
            exact getD_set_none ws.entries i
      · cases hw : ws.get id' with
        | none => simp [dispatchLoop, hw, ih, hmem]
        | some w => simp [dispatchLoop, hw, ih, hmem]
    · have hne : i ≠ id' := fun h => hi (h ▸ List.mem_cons_self _ _)
      have hnr : i ∉ rest := fun h => hi (List.mem_cons_of_mem _ h)
      simp only [if_neg hi]
      cases hw : ws.get id' with
      | none => simp [dispatchLoop, hw, ih, hnr]
      | some w =>
        simp only [dispatchLoop, hw, ih, if_neg hnr]
        exact getD_set_ne ws.entries id' i hne

/-! ### Operation-level helper lemmas -/

theorem update_node_status_snapshots (inner : Inner) (n : String) (now : Nat) :
    (inner.update_node_status n now).snapshots = inner.snapshots := by
  unfold Inner.update_node_status
  cases alistGet n inner.status <;> rfl

theorem update_node_status_get_self (inner : Inner) (n : String) (now : Nat) :
    (alistGet n (inner.update_node_status n now).status).isSome := by
  unfold Inner.update_node_status
  cases h : alistGet n inner.status <;> simp [h, alistGet_insert_self]

theorem update_node_status_get_isSome (inner : Inner) (n m : String) (now : Nat)
    (h : (alistGet m inner.status).isSome) :
    (alistGet m (inner.update_node_status n now).status).isSome := by
  unfold Inner.update_node_status
  cases hn : alistGet n inner.status <;> simp [hn] <;>
    exact alistGet_isSome_insert _ _ _ _ h

theorem set_watch_spec (inner : Inner) (node_id : String) (req : DiscoveryRequest)
    (tx : Nat) (h : (alistGet node_id inner.status).isSome) :
    (inner.set_watch node_id req tx).2.node_id = node_id ∧
    watchAt (inner.set_watch node_id req tx).1 node_id
      (inner.set_watch node_id req tx).2.index = some { req := req, tx := tx } := by
  obtain ⟨st, hst⟩ := Option.isSome_iff_exists.mp h
  unfold Inner.set_watch
  rw [hst]
  refine ⟨rfl, ?_⟩
  simp only [watchAt, alistGet_insert_self]
  simpa [Slab.get, Slab.insert] using slabInsertAux_getD { req := req, tx := tx } st.watches.entries

theorem set_watch_status_isSome (inner : Inner) (node_id m : String)
    (req : DiscoveryRequest) (tx : Nat) (h : (alistGet m inner.status).isSome) :
    (alistGet m ((inner.set_watch node_id req tx).1).status).isSome := by
  unfold Inner.set_watch
  cases hn : alistGet node_id inner.status with
  | none => simpa using h
  | some st => simpa using alistGet_isSome_insert _ _ _ _ h

theorem set_watch_snapshots (inner : Inner) (node_id : String)
    (req : DiscoveryRequest) (tx : Nat) :
    ((inner.set_watch node_id req tx).1).snapshots = inner.snapshots := by
  unfold Inner.set_watch
  cases alistGet node_id inner.status <;> rfl

theorem fetch_fst (inner : Inner) (req : DiscoveryRequest) (type_url : String) :
    (fetch inner req type_url).1 = inner := by
  simp only [fetch]
  cases h : alistGet (hash_id req.node) inner.snapshots with
  | none => rfl
  | some snapshot =>
    by_cases hv : req.version_info = snapshot.version req.type_url <;> simp [hv]

/-- Case analysis of `create_watch`: either a watch is installed on the
(freshly touched) node status and nothing is sent, or the status is only
touched, `None` is returned, and exactly one response is sent — the
latter only when the node has a snapshot. -/
theorem create_watch_shape (ads : Bool) (inner : Inner) (req : DiscoveryRequest)
    (tx : Nat) (known : KnownResourceNames) (now : Nat) :
    create_watch ads inner req tx known now =
      (((inner.update_node_status (hash_id req.node) now).set_watch
          (hash_id req.node) req tx).1,
        some ((inner.update_node_status (hash_id req.node) now).set_watch
          (hash_id req.node) req tx).2, [])
    ∨ ∃ s snap, s.tx = tx ∧
        alistGet (hash_id req.node) inner.snapshots = some snap ∧
        create_watch ads inner req tx known now =
          (inner.update_node_status (hash_id req.node) now, none, [s]) := by
  simp only [create_watch]
  rw [update_node_status_snapshots]
  cases h : alistGet (hash_id req.node) inner.snapshots with
  | none => exact Or.inl rfl
  | some snap =>
    simp only
    by_cases h1 : is_requesting_new_resources req (snap.resources req.type_url)
        (alistGet req.type_url known) = true
    · simp only [h1, if_true]
      by_cases h2 : (ads && check_ads_consistency req (snap.resources req.type_url)) = true
      · simp only [h2, if_true]
        exact Or.inl trivial
      · simp only [Bool.not_eq_true] at h2
        simp only [h2, Bool.false_eq_true, if_false]
        exact Or.inr ⟨_, snap, rfl, rfl, rfl⟩
    · simp only [Bool.not_eq_true] at h1
      simp only [h1, Bool.false_eq_true, if_false]
      by_cases h2 : req.version_info = snap.version req.type_url
      · simp only [h2, if_pos rfl]
        exact Or.inl rfl
      · simp only [if_neg h2]
        by_cases h3 : (ads && check_ads_consistency req (snap.resources req.type_url)) = true
        · simp only [h3, if_true]
          exact Or.inl trivial
        · simp only [Bool.not_eq_true] at h3
          simp only [h3, Bool.false_eq_true, if_false]
          exact Or.inr ⟨_, snap, rfl, rfl, rfl⟩

theorem cancel_watch_unknown (inner : Inner) (id : WatchId)
    (h : alistGet id.node_id inner.status = none) : cancel_watch inner id = inner := by
  unfold cancel_watch
  rw [h]

theorem cancel_watch_vacant (inner : Inner) (id : WatchId) (st : NodeStatus)
    (h1 : alistGet id.node_id inner.status = some st)
    (h2 : st.watches.get id.index = none) : cancel_watch inner id = inner := by
  have hset : st.watches.tryRemove id.index = st.watches := by
    unfold Slab.tryRemove
    rw [set_none_of_getD_none st.watches.entries id.index h2]
  unfold cancel_watch
  rw [h1]
  simp only [hset]
  have hrebuild :
      ({ last_request_time := st.last_request_time, watches := st.watches } :
        NodeStatus) = st := rfl
  rw [hrebuild, alistInsert_get_eq _ _ _ h1]

theorem watchAt_cancel_other (inner : Inner) (id : WatchId) (n : String) (i : Nat)
    (h : ¬(n = id.node_id ∧ i = id.index)) :
    watchAt (cancel_watch inner id) n i = watchAt inner n i := by
  unfold cancel_watch
  cases hn : alistGet id.node_id inner.status with
  | none => rfl
  | some st =>
    by_cases hnode : n = id.node_id
    · subst hnode
      have hi : i ≠ id.index := fun hi => h ⟨rfl, hi⟩
      simp only [watchAt, alistGet_insert_self, hn]
      exact getD_set_ne st.watches.entries id.index i hi
    · simp only [watchAt, alistGet_insert, if_neg hnode]

theorem cancel_watch_idem (inner : Inner) (id : WatchId) :
    cancel_watch (cancel_watch inner id) id = cancel_watch inner id := by
  cases hn : alistGet id.node_id inner.status with
  | none =>
    rw [cancel_watch_unknown inner id hn, cancel_watch_unknown inner id hn]
  | some st =>
    have hafter : alistGet id.node_id (cancel_watch inner id).status =
        some { st with watches := st.watches.tryRemove id.index } := by
      unfold cancel_watch
      rw [hn]
      exact alistGet_insert_self _ _ _
    have hvac : ({ st with watches := st.watches.tryRemove id.index } :
        NodeStatus).watches.get id.index = none :=
      getD_set_none st.watches.entries id.index
    exact cancel_watch_vacant _ id _ hafter hvac

/-! ### Claim theorems -/

theorem filterResourcesLoop_eq (items : List (String × Resource)) (names : List String) :
    filterResourcesLoop items names =
      names.filterMap (fun name => (alistGet name items).map Resource.into_any) := by
  induction names with
  | nil => rfl
  | cons n rest ih =>
    cases h : alistGet n items <;> simp [filterResourcesLoop, h, ih]

/-- Claim C4: `build_response req resources v` yields a response with
`version_info = v`, `type_url = req.type_url`, empty nonce, `canary =
false`, absent `control_plane`; its resource list is every bundle entry
when `req.resource_names` is empty, otherwise exactly the bundle entries
named by the request, in request order with request duplicates producing
response duplicates, and is empty when the bundle is absent. -/
theorem build_response_spec (req : DiscoveryRequest) (resources : Option Resources)
    (v : String) :
    (build_response req resources v).version_info = v ∧
    (build_response req resources v).type_url = req.type_url ∧
    (build_response req resources v).nonce = "" ∧
    (build_response req resources v).canary = false ∧
    (build_response req resources v).control_plane = none ∧
    (build_response req resources v).resources =
      Option.elim resources []
        (fun r =>
          if req.resource_names = [] then r.items.map (fun p => p.2.into_any)
          else req.resource_names.filterMap
            (fun name => (alistGet name r.items).map Resource.into_any)) := by
  refine ⟨rfl, rfl, rfl, rfl, rfl, ?_⟩
  cases resources with
  | none => rfl
  | some r =>
    cases hn : req.resource_names with
    | nil => simp [build_response, hn]
    | cons a names => simp [build_response, hn, filterResourcesLoop_eq]

/-- Claim C7: `check_ads_consistency` returns `true` unless the request
names a non-empty resource set and the bundle holds a resource whose name
is outside that set; in particular it returns `true` whenever
`req.resource_names` is empty or the bundle is absent. -/
theorem check_ads_consistency_spec (req : DiscoveryRequest)
    (resources : Option Resources) :
    (check_ads_consistency req resources = false ↔
      req.resource_names ≠ [] ∧ ∃ r, resources = some r ∧
        ∃ p ∈ r.items, p.1 ∉ req.resource_names) ∧
    (req.resource_names = [] → check_ads_consistency req resources = true) ∧
    (resources = none → check_ads_consistency req resources = true) := by
  unfold check_ads_consistency
  cases resources with
  | none => cases hn : req.resource_names <;> simp
  | some r =>
    cases hn : req.resource_names with
    | nil => simp
    | cons a names =>
      simp only [List.isEmpty_cons, Bool.not_false, if_true]
      constructor
      · rw [List.all_eq_false]
        constructor
        · rintro ⟨p, hp, hcon⟩
          refine ⟨List.cons_ne_nil a names, r, rfl, p, hp, ?_⟩
          simpa [List.contains, List.elem_iff] using hcon
        · rintro ⟨-, r', hr', p, hp, hnot⟩
          cases hr'
          refine ⟨p, hp, ?_⟩
          simpa [List.contains, List.elem_iff] using hnot
      · constructor
        · intro h
          exact absurd h (List.cons_ne_nil a names)
        · intro h
          cases h

/-- Claim C7 witness: an empty `resource_names` list always passes the
consistency check. -/
theorem check_ads_consistency_spec_witness :
    check_ads_consistency
      { version_info := "v0", node := some ⟨"N"⟩, resource_names := [],
        type_url := "C" } (some ⟨[("c1", ⟨"c1", 1⟩)]⟩) = true :=
  (check_ads_consistency_spec
    { version_info := "v0", node := some ⟨"N"⟩, resource_names := [],
      type_url := "C" } (some ⟨[("c1", ⟨"c1", 1⟩)]⟩)).2.1 rfl

/-- Claim C3: `fetch` returns `NotFound` iff the node has no snapshot;
`VersionUpToDate` iff a snapshot exists and `req.version_info` equals
`snapshot.version(req.type_url)`; otherwise `Ok` of a response built over
`snapshot.resources(type_url)` (the caller-supplied URL) with the version
taken from `req.type_url`; and it never mutates the cache state. -/
theorem fetch_spec (inner : Inner) (req : DiscoveryRequest) (type_url : String) :
    ((fetch inner req type_url).2 = .error .NotFound ↔
      alistGet (hash_id req.node) inner.snapshots = none) ∧
    ((fetch inner req type_url).2 = .error .VersionUpToDate ↔
      ∃ s, alistGet (hash_id req.node) inner.snapshots = some s ∧
        req.version_info = s.version req.type_url) ∧
    (∀ s, alistGet (hash_id req.node) inner.snapshots = some s →
      req.version_info ≠ s.version req.type_url →
      (fetch inner req type_url).2 =
        .ok (build_response req (s.resources type_url) (s.version req.type_url))) ∧
    (fetch inner req type_url).1 = inner := by
  refine ⟨?_, ?_, ?_, fetch_fst inner req type_url⟩ <;> simp only [fetch]
  · cases h : alistGet (hash_id req.node) inner.snapshots with
    | none => simp
    | some s =>
      by_cases hv : req.version_info = s.version req.type_url <;> simp [hv]
  · cases h : alistGet (hash_id req.node) inner.snapshots with
    | none => simp
    | some s =>
      by_cases hv : req.version_info = s.version req.type_url <;> simp [hv]
  · intro s hs hv
    rw [hs]
    simp [hv]

/-- Claim C3 witness: on a one-node cache holding cluster `c1` at version
`v1`, a stale fetch returns `Ok` of the built response. -/
theorem fetch_spec_witness :
    (fetch
      { status := [],
        snapshots := [("N", ⟨[("C", ⟨[("c1", ⟨"c1", 1⟩)]⟩, "v1")]⟩)] }
      { version_info := "", node := some ⟨"N"⟩, resource_names := [],
        type_url := "C" } "C").2 =
      .ok (build_response
        { version_info := "", node := some ⟨"N"⟩, resource_names := [],
          type_url := "C" }
        (Snapshot.resources ⟨[("C", ⟨[("c1", ⟨"c1", 1⟩)]⟩, "v1")]⟩ "C")
        (Snapshot.version ⟨[("C", ⟨[("c1", ⟨"c1", 1⟩)]⟩, "v1")]⟩ "C")) :=
  (fetch_spec
    { status := [],
      snapshots := [("N", ⟨[("C", ⟨[("c1", ⟨"c1", 1⟩)]⟩, "v1")]⟩)] }
    { version_info := "", node := some ⟨"N"⟩, resource_names := [],
      type_url := "C" } "C").2.2.1
    ⟨[("C", ⟨[("c1", ⟨"c1", 1⟩)]⟩, "v1")]⟩ (by decide) (by decide)

/-- Claim C9: `fetch` leaves the whole cache state unchanged, so a node
absent from the status map stays absent from `node_status()` after any
fetch. -/
theorem fetch_frame (inner : Inner) (req : DiscoveryRequest) (type_url : String)
    (n : String) :
    (fetch inner req type_url).1 = inner ∧
    node_status (fetch inner req type_url).1 = node_status inner ∧
    (alistGet n inner.status = none →
      ∀ t, (n, t) ∉ node_status (fetch inner req type_url).1) := by
  refine ⟨fetch_fst inner req type_url, by rw [fetch_fst], ?_⟩
  intro h t hmem
  rw [fetch_fst] at hmem
  simp only [node_status, List.mem_map] at hmem
  obtain ⟨⟨k, st⟩, hk, heq⟩ := hmem
  obtain ⟨hk1, -⟩ := Prod.mk.injEq .. ▸ heq
  exact alistGet_none_not_mem n inner.status h st (by simpa [← hk1] using hk)

/-- Claim C9 witness: node `"M"` never interacts except through `fetch`
and does not appear in `node_status`. -/
theorem fetch_frame_witness :
    ("M", 5) ∉ node_status
      (fetch
        { status := [], snapshots := [("N", ⟨[("C", ⟨[("c1", ⟨"c1", 1⟩)]⟩, "v1")]⟩)] }
        { version_info := "", node := some ⟨"M"⟩, resource_names := [],
          type_url := "C" } "C").1 :=
  (fetch_frame
    { status := [], snapshots := [("N", ⟨[("C", ⟨[("c1", ⟨"c1", 1⟩)]⟩, "v1")]⟩)] }
    { version_info := "", node := some ⟨"M"⟩, resource_names := [],
      type_url := "C" } "C" "M").2.2 (by decide) 5

/-- Claim C6: `create_watch` returns `Some` iff it installed the watch
(recorded under the returned id, with nothing sent on `tx`), returns
`None` iff exactly one response was sent, and always installs a watch
when the node has no snapshot. -/
theorem create_watch_contract (ads : Bool) (inner : Inner) (req : DiscoveryRequest)
    (tx : Nat) (known : KnownResourceNames) (now : Nat) :
    ((create_watch ads inner req tx known now).2.2 = [] ↔
      ∃ id, (create_watch ads inner req tx known now).2.1 = some id) ∧
    ((create_watch ads inner req tx known now).2.1 = none ↔
      (create_watch ads inner req tx known now).2.2.length = 1) ∧
    (∀ id, (create_watch ads inner req tx known now).2.1 = some id →
      watchAt (create_watch ads inner req tx known now).1 id.node_id id.index =
        some { req := req, tx := tx }) ∧
    (∀ s, s ∈ (create_watch ads inner req tx known now).2.2 → s.tx = tx) ∧
    (alistGet (hash_id req.node) inner.snapshots = none →
      ∃ id, (create_watch ads inner req tx known now).2.1 = some id) := by
  rcases create_watch_shape ads inner req tx known now with h | ⟨s, snap, hstx, hsnap, h⟩
  · rw [h]
    refine ⟨by simp, by simp, ?_, by simp, fun _ => ⟨_, rfl⟩⟩
    intro id hid
    simp only [Option.some.injEq] at hid
    subst hid
    have hpres := update_node_status_get_self inner (hash_id req.node) now
    have hsw := set_watch_spec (inner.update_node_status (hash_id req.node) now)
      (hash_id req.node) req tx hpres
    rw [hsw.1]
    exact hsw.2
  · rw [h]
    refine ⟨by simp, by simp, by simp, ?_, ?_⟩
    · intro s' hs'
      simp only [List.mem_singleton] at hs'
      subst hs'
      exact hstx
    · intro hnone
      rw [hnone] at hsnap
      cases hsnap

/-- Claim C6 witness: on an empty cache the watch for node `"N"` is
installed at index 0 and is retrievable. -/
theorem create_watch_contract_witness :
    watchAt (create_watch false { status := [], snapshots := [] }
      { version_info := "", node := some ⟨"N"⟩, resource_names := [],
        type_url := "C" } 5 [] 0).1 "N" 0 =
      some { req := { version_info := "", node := some ⟨"N"⟩,
                      resource_names := [], type_url := "C" }, tx := 5 } :=
  (create_watch_contract false { status := [], snapshots := [] }
    { version_info := "", node := some ⟨"N"⟩, resource_names := [],
      type_url := "C" } 5 [] 0).2.2.1 ⟨"N", 0⟩ (by decide)

/-- Claim C8: `cancel_watch` is idempotent, a strict no-op on unknown
node ids and already-vacated indices, and never touches any watch other
than the one at `(watch_id.node_id, watch_id.index)`. -/
theorem cancel_watch_spec (inner : Inner) (id : WatchId) :
    cancel_watch (cancel_watch inner id) id = cancel_watch inner id ∧
    (alistGet id.node_id inner.status = none → cancel_watch inner id = inner) ∧
    (∀ st, alistGet id.node_id inner.status = some st →
      st.watches.get id.index = none → cancel_watch inner id = inner) ∧
    (∀ n i, ¬(n = id.node_id ∧ i = id.index) →
      watchAt (cancel_watch inner id) n i = watchAt inner n i) :=
  ⟨cancel_watch_idem inner id, cancel_watch_unknown inner id,
   fun st h1 h2 => cancel_watch_vacant inner id st h1 h2,
   fun n i h => watchAt_cancel_other inner id n i h⟩

/-- Cache state used by the C8 witness: one node `"N"` with a single
pending watch at slab index 0. -/
def cancelWitnessState : Inner :=
  { status := [("N",
      { last_request_time := 0,
        watches := ⟨[some
          { req := { version_info := "v1", node := some ⟨"N"⟩,
                     resource_names := [], type_url := "C" },
            tx := 3 }]⟩ })],
    snapshots := [] }

/-- Claim C8 witness: cancelling watch `("N", 0)` twice equals once, and
the slot of another node is untouched. -/
theorem cancel_watch_spec_witness :
    cancel_watch (cancel_watch cancelWitnessState ⟨"N", 0⟩) ⟨"N", 0⟩ =
      cancel_watch cancelWitnessState ⟨"N", 0⟩ ∧
    watchAt (cancel_watch cancelWitnessState ⟨"N", 0⟩) "M" 0 =
      watchAt cancelWitnessState "M" 0 :=
  ⟨(cancel_watch_spec cancelWitnessState ⟨"N", 0⟩).1,
   (cancel_watch_spec cancelWitnessState ⟨"N", 0⟩).2.2.2 "M" 0 (by decide)⟩

/-- Claim C5: with `ads = false`, when the node has a snapshot, the
type's bundle is present, `known_resource_names` has an entry for the
type, and some requested name is unknown to the client but present in the
bundle, `create_watch` responds immediately with exactly one send and
returns `None`, regardless of `req.version_info`. -/
theorem create_watch_new_resources_responds (inner : Inner) (req : DiscoveryRequest)
    (tx : Nat) (known : KnownResourceNames) (now : Nat) (snapshot : Snapshot)
    (res : Resources) (tk : List String) (name : String)
    (hsnap : alistGet (hash_id req.node) inner.snapshots = some snapshot)
    (hres : snapshot.resources req.type_url = some res)
    (htk : alistGet req.type_url known = some tk)
    (hmem : name ∈ req.resource_names)
    (hnotk : name ∉ tk)
    (hin : (alistGet name res.items).isSome) :
    (create_watch false inner req tx known now).2.1 = none ∧
    (create_watch false inner req tx known now).2.2 =
      [respond req tx (some res) (snapshot.version req.type_url)] := by
  have hreq : is_requesting_new_resources req (snapshot.resources req.type_url)
      (alistGet req.type_url known) = true := by
    rw [hres, htk]
    simp only [is_requesting_new_resources, List.any_eq_true]
    refine ⟨name, ?_, hin⟩
    rw [List.mem_filter]
    refine ⟨hmem, ?_⟩
    simp [List.contains, List.elem_iff, hnotk]
  simp only [create_watch]
  rw [update_node_status_snapshots, hsnap]
  simp only [hreq, if_true, Bool.false_and, Bool.false_eq_true, if_false]
  rw [hres]
  exact ⟨trivial, rfl⟩

/-- Claim C5 witness: scenario S3 — bundle `{c1, c2}` at `"v1"`, request
naming `c2` at the current version with `known = {C: {c1}}` responds
immediately. -/
theorem create_watch_new_resources_responds_witness :
    (create_watch false
      { status := [], snapshots := [("N", ⟨[("C", ⟨[("c1", ⟨"c1", 1⟩), ("c2", ⟨"c2", 2⟩)]⟩, "v1")]⟩)] }
      { version_info := "v1", node := some ⟨"N"⟩, resource_names := ["c2"],
        type_url := "C" } 7 [("C", ["c1"])] 0).2.1 = none ∧
    (create_watch false
      { status := [], snapshots := [("N", ⟨[("C", ⟨[("c1", ⟨"c1", 1⟩), ("c2", ⟨"c2", 2⟩)]⟩, "v1")]⟩)] }
      { version_info := "v1", node := some ⟨"N"⟩, resource_names := ["c2"],
        type_url := "C" } 7 [("C", ["c1"])] 0).2.2 =
      [respond
        { version_info := "v1", node := some ⟨"N"⟩, resource_names := ["c2"],
          type_url := "C" } 7
        (some ⟨[("c1", ⟨"c1", 1⟩), ("c2", ⟨"c2", 2⟩)]⟩)
        (Snapshot.version ⟨[("C", ⟨[("c1", ⟨"c1", 1⟩), ("c2", ⟨"c2", 2⟩)]⟩, "v1")]⟩ "C")] :=
  create_watch_new_resources_responds
    { status := [], snapshots := [("N", ⟨[("C", ⟨[("c1", ⟨"c1", 1⟩), ("c2", ⟨"c2", 2⟩)]⟩, "v1")]⟩)] }
    { version_info := "v1", node := some ⟨"N"⟩, resource_names := ["c2"],
      type_url := "C" } 7 [("C", ["c1"])] 0
    ⟨[("C", ⟨[("c1", ⟨"c1", 1⟩), ("c2", ⟨"c2", 2⟩)]⟩, "v1")]⟩
    ⟨[("c1", ⟨"c1", 1⟩), ("c2", ⟨"c2", 2⟩)]⟩ ["c1"] "c2"
    (by decide) (by decide) (by decide) (by decide) (by decide) (by decide)

/-- ADS-mode cache state for the C1 counterexample: node `"N"` has
cluster bundle `{c1, c2}` at version `"v1"` (the spec's scenario S4). -/
def adsState : Inner :=
  { status := [],
    snapshots := [("N", ⟨[("C", ⟨[("c1", ⟨"c1", 1⟩), ("c2", ⟨"c2", 2⟩)]⟩, "v1")]⟩)] }

/-- Scenario-S4 request: stale version, naming only `c1`. -/
def adsReq : DiscoveryRequest :=
  { version_info := "v0", node := some ⟨"N"⟩, resource_names := ["c1"],
    type_url := "C" }

/-- Claim C1 counterexample: in scenario S4 (ADS mode, bundle `{c1, c2}`,
request naming only `c1` with a stale version) the code responds
immediately — `create_watch` returns `None` and sends — rather than
suppressing and installing a watch as the claim states. -/
theorem ads_gate_counterexample :
    (create_watch true adsState adsReq 7 [] 0).2.1 = none ∧
    (create_watch true adsState adsReq 7 [] 0).2.2 ≠ [] := by decide

/-- Claim C1 (amended): in ADS mode, when `create_watch` would otherwise
respond immediately (resource-set expansion detected or stale version)
the response is suppressed and a watch installed exactly when
`check_ads_consistency` returns `true` — that is, when
`req.resource_names` is empty or every bundle resource name appears in
the request; when the bundle holds a name outside a non-empty request
set, the code responds immediately instead. -/
theorem ads_gate_suppresses (inner : Inner) (req : DiscoveryRequest) (tx : Nat)
    (known : KnownResourceNames) (now : Nat) (snapshot : Snapshot)
    (hsnap : alistGet (hash_id req.node) inner.snapshots = some snapshot)
    (hcheck : check_ads_consistency req (snapshot.resources req.type_url) = true)
    (hwould : is_requesting_new_resources req (snapshot.resources req.type_url)
        (alistGet req.type_url known) = true ∨
      req.version_info ≠ snapshot.version req.type_url) :
    (∃ id, (create_watch true inner req tx known now).2.1 = some id) ∧
    (create_watch true inner req tx known now).2.2 = [] := by
  simp only [create_watch]
  rw [update_node_status_snapshots, hsnap]
  have hads : (true && check_ads_consistency req (snapshot.resources req.type_url))
      = true := by simp [hcheck]
  cases hreqnew : is_requesting_new_resources req (snapshot.resources req.type_url)
      (alistGet req.type_url known) with
  | true =>
    simp only [hreqnew, if_true, hads]
    exact ⟨⟨_, rfl⟩, trivial⟩
  | false =>
    have hw2 : req.version_info ≠ snapshot.version req.type_url := by
      rcases hwould with hw1 | hw2
      · rw [hreqnew] at hw1; cases hw1
      · exact hw2
    simp only [hreqnew, Bool.false_eq_true, if_false, if_neg hw2, hads, if_true]
    exact ⟨⟨_, rfl⟩, trivial⟩

/-- ADS-mode cache state for the C1 witness: bundle `{c1}` only. -/
def adsSupState : Inner :=
  { status := [],
    snapshots := [("N", ⟨[("C", ⟨[("c1", ⟨"c1", 1⟩)]⟩, "v1")]⟩)] }

/-- Request naming a superset `[c1, c2]` of the bundle, stale version. -/
def adsSupReq : DiscoveryRequest :=
  { version_info := "v0", node := some ⟨"N"⟩, resource_names := ["c1", "c2"],
    type_url := "C" }

/-- Claim C1 witness: when every bundle name is in the request's set, ADS
mode suppresses the response and installs a watch. -/
theorem ads_gate_suppresses_witness :
    (∃ id, (create_watch true adsSupState adsSupReq 7 [] 0).2.1 = some id) ∧
    (create_watch true adsSupState adsSupReq 7 [] 0).2.2 = [] :=
  ads_gate_suppresses adsSupState adsSupReq 7 [] 0
    ⟨[("C", ⟨[("c1", ⟨"c1", 1⟩)]⟩, "v1")]⟩
    (by decide) (by decide) (Or.inr (by decide))

/-- Cache state for the C2 counterexample: node `"N"` has one pending
watch whose recorded `version_info` is `"v1"`. -/
def currentWatchState : Inner :=
  { status := [("N",
      { last_request_time := 0,
        watches := ⟨[some
          { req := { version_info := "v1", node := some ⟨"N"⟩,
                     resource_names := [], type_url := "C" },
            tx := 3 }]⟩ })],
    snapshots := [] }

/-- Snapshot carrying the same version `"v1"` for type `"C"`. -/
def currentSnap : Snapshot := ⟨[("C", ⟨[("c1", ⟨"c1", 1⟩)]⟩, "v1")]⟩

/-- Claim C2 counterexample: after `set_snapshot`, the watch whose
`version_info` EQUALS the new snapshot version remains in the slab — the
claim that no remaining watch has `req.version_info =
s.version(req.type_url)` is false (the dispatched watches are exactly
those that DIFFER). -/
theorem set_snapshot_counterexample :
    watchAt (set_snapshot currentWatchState "N" currentSnap).1 "N" 0 =
      some { req := { version_info := "v1", node := some ⟨"N"⟩,
                      resource_names := [], type_url := "C" }, tx := 3 } ∧
    ({ version_info := "v1", node := some ⟨"N"⟩, resource_names := [],
       type_url := "C" } : DiscoveryRequest).version_info =
      currentSnap.version
        ({ version_info := "v1", node := some ⟨"N"⟩, resource_names := [],
           type_url := "C" } : DiscoveryRequest).type_url := by decide

/-- The per-node entry of the status map after `set_snapshot`: on the
touched node the slab is the dispatch loop's result, elsewhere nothing
changes. -/
theorem set_snapshot_status_get (inner : Inner) (node : String) (snap : Snapshot) :
    alistGet node ((set_snapshot inner node snap).1).status =
      match alistGet node inner.status with
      | some status =>
        some { status with
          watches := (dispatchLoop snap status.watches
            ((status.watches.occupied.filter
              (fun p => snap.version p.2.req.type_url ≠ p.2.req.version_info)).map
              Prod.fst)).1 }
      | none => none := by
  simp only [set_snapshot]
  cases h : alistGet node inner.status with
  | none => simp [h]
  | some status => simp [h, alistGet_insert_self]

/-- Claim C2 (amended): immediately after `set_snapshot(n, s)`, every
watch remaining in `n`'s slab has `req.version_info` EQUAL to
`s.version(req.type_url)` — equivalently, no remaining watch's recorded
version differs from the new snapshot's version for its type (all such
watches were dispatched and removed). -/
theorem set_snapshot_dispatches_stale (inner : Inner) (node : String)
    (snap : Snapshot) (st : NodeStatus) (i : Nat) (w : Watch)
    (hst : alistGet node ((set_snapshot inner node snap).1).status = some st)
    (hw : st.watches.get i = some w) :
    w.req.version_info = snap.version w.req.type_url := by
  rw [set_snapshot_status_get] at hst
  cases hcase : alistGet node inner.status with
  | none => rw [hcase] at hst; simp at hst
  | some status =>
    rw [hcase] at hst
    simp only [Option.some.injEq] at hst
    subst hst
    simp only [Slab.get] at hw
    have hget := dispatchLoop_get snap status.watches
      ((status.watches.occupied.filter
        (fun p => snap.version p.2.req.type_url ≠ p.2.req.version_info)).map
        Prod.fst) i
    simp only [Slab.get] at hget
    rw [hget] at hw
    split at hw
    · cases hw
    · rename_i hnot
      by_contra hne
      apply hnot
      have hocc : (i, w) ∈ status.watches.occupied := by
        have := mem_slabOccupiedAux status.watches.entries 0 i w hw
        simpa [Slab.occupied] using this
      refine List.mem_map.mpr ⟨(i, w), List.mem_filter.mpr ⟨hocc, ?_⟩, rfl⟩
      simp only [decide_eq_true_eq]
      exact fun hEq => hne hEq.symm

/-- Claim C2 witness: the watch remaining after the counterexample's
`set_snapshot` indeed carries the snapshot's version. -/
theorem set_snapshot_dispatches_stale_witness :
    ({ version_info := "v1", node := some ⟨"N"⟩, resource_names := [],
       type_url := "C" } : DiscoveryRequest).version_info =
      currentSnap.version
        ({ version_info := "v1", node := some ⟨"N"⟩, resource_names := [],
           type_url := "C" } : DiscoveryRequest).type_url :=
  set_snapshot_dispatches_stale currentWatchState "N" currentSnap
    { last_request_time := 0,
      watches := ⟨[some
        { req := { version_info := "v1", node := some ⟨"N"⟩,
                   resource_names := [], type_url := "C" }, tx := 3 }]⟩ } 0
    { req := { version_info := "v1", node := some ⟨"N"⟩,
               resource_names := [], type_url := "C" }, tx := 3 }
    (by decide) (by decide)

theorem applyOp_status_isSome (ads : Bool) (inner : Inner) (op : Op) (m : String)
    (h : (alistGet m inner.status).isSome) :
    (alistGet m (applyOp ads inner op).status).isSome := by
  cases op with
  | createWatch req tx known now =>
    simp only [applyOp]
    rcases create_watch_shape ads inner req tx known now with hs | ⟨s, snap, -, -, hs⟩
    · rw [hs]
      exact set_watch_status_isSome _ _ _ _ _
        (update_node_status_get_isSome inner _ m now h)
    · rw [hs]
      exact update_node_status_get_isSome inner _ m now h
  | cancelWatch id =>
    simp only [applyOp]
    unfold cancel_watch
    cases hn : alistGet id.node_id inner.status with
    | none => exact h
    | some st =>
      by_cases hm : m = id.node_id
      · subst hm
        simp [alistGet_insert_self]
      · simpa [alistGet_insert, hm] using h
  | setSnapshot node snap =>
    simp only [applyOp, set_snapshot]
    cases hn : alistGet node inner.status with
    | none => simpa [hn] using h
    | some st =>
      by_cases hm : m = node
      · subst hm
        simp [hn, alistGet_insert_self]
      · simpa [hn, alistGet_insert, hm] using h
  | fetchOp req type_url =>
    simp only [applyOp]
    rw [fetch_fst]
    exact h

theorem foldl_applyOp_isSome (ads : Bool) (ops : List Op) (inner : Inner) (m : String)
    (h : (alistGet m inner.status).isSome) :
    (alistGet m (List.foldl (applyOp ads) inner ops).status).isSome := by
  induction ops generalizing inner with
  | nil => exact h
  | cons op rest ih => exact ih _ (applyOp_status_isSome ads inner op m h)

theorem create_watch_status_self (ads : Bool) (inner : Inner) (req : DiscoveryRequest)
    (tx : Nat) (known : KnownResourceNames) (now : Nat) :
    (alistGet (hash_id req.node)
      ((create_watch ads inner req tx known now).1).status).isSome := by
  rcases create_watch_shape ads inner req tx known now with hs | ⟨s, snap, -, -, hs⟩
  · rw [hs]
    exact set_watch_status_isSome _ _ _ _ _ (update_node_status_get_self inner _ now)
  · rw [hs]
    exact update_node_status_get_self inner _ now

/-- Claim C10: once `create_watch` has run for a node, the node's status
entry survives every subsequent sequence of `create_watch`,
`cancel_watch`, `set_snapshot` and `fetch` calls, so the node always
appears in `node_status()`. -/
theorem node_status_persistent (ads : Bool) (inner : Inner) (req : DiscoveryRequest)
    (tx : Nat) (known : KnownResourceNames) (now : Nat) (ops : List Op) :
    ∃ t, (hash_id req.node, t) ∈ node_status
      (List.foldl (applyOp ads) (create_watch ads inner req tx known now).1 ops) := by
  have h1 := create_watch_status_self ads inner req tx known now
  have h2 := foldl_applyOp_isSome ads ops _ _ h1
  obtain ⟨st, hst⟩ := Option.isSome_iff_exists.mp h2
  exact ⟨st.last_request_time,
    List.mem_map.mpr ⟨(hash_id req.node, st), alistGet_mem _ _ _ hst, rfl⟩⟩

end ControlPlane
